import Mathlib

/-! Shallow embedding of the Fourier-optics computation core in
`src/cgh_neuromod/computations/cgh_pattern_generator.py`: coordinate
generation, direct multi-spot phase synthesis, target-amplitude
construction, Gerchberg-Saxton retrieval with pupil constraint, Fresnel
lens phase, quantization, and the correction-pattern merge.  Floating
point is modelled by real arithmetic, numpy `uint8` arithmetic by
natural numbers modulo 256, and 2-D numpy arrays by index functions
(together with their shape where a shape check matters). -/

/-- Real counterpart of Python float `x % y` and `np.mod(x, y)`:
the remainder taking the divisor's sign, `x - y * ⌊x / y⌋`. -/
noncomputable def rmod (x y : ℝ) : ℝ := x - y * (⌊x / y⌋ : ℤ)

/-- Counterpart of `np.round`: round half to even (banker's rounding). -/
noncomputable def npRound (x : ℝ) : ℤ :=
  if x - (⌊x⌋ : ℤ) < 1 / 2 then ⌊x⌋
  else if 1 / 2 < x - (⌊x⌋ : ℤ) then ⌊x⌋ + 1
  else if Even ⌊x⌋ then ⌊x⌋ else ⌊x⌋ + 1

/-- A 2-D numpy array: its shape `(ny, nx)` and its entries as an index
function (entries outside the shape are irrelevant junk). -/
structure Arr2 (α : Type) where
  ny : ℕ
  nx : ℕ
  val : ℕ → ℕ → α

/-- Optical constants of the `MicroscopeSLMSystem` dataclass. -/
structure MicroscopeSLMSystem where
  wavelength : ℝ
  n_medium : ℝ
  NA_obj : ℝ
  M_obj : ℝ
  f_tube : ℝ
  f_fresnel : ℝ
  pupil_mag : ℝ

/-- Objective focal length, `f_tube / M_obj`. -/
noncomputable def MicroscopeSLMSystem.f_obj (s : MicroscopeSLMSystem) : ℝ :=
  s.f_tube / s.M_obj

/-- Pupil magnification property (returns the `pupil_mag` field). -/
noncomputable def MicroscopeSLMSystem.pupil_magnification (s : MicroscopeSLMSystem) : ℝ :=
  s.pupil_mag

/-- The relative aperture `NA_obj / n_medium`, set to `0.999999` when it
is `≥ 1.0` (the clamping branch in `pupil_radius_obj`). -/
noncomputable def MicroscopeSLMSystem.na_rel (s : MicroscopeSLMSystem) : ℝ :=
  if 1 ≤ s.NA_obj / s.n_medium then 999999 / 10 ^ 6 else s.NA_obj / s.n_medium

/-- Objective pupil radius: `f_obj * na_rel / sqrt(1 - na_rel ** 2)`. -/
noncomputable def MicroscopeSLMSystem.pupil_radius_obj (s : MicroscopeSLMSystem) : ℝ :=
  s.f_obj * s.na_rel / Real.sqrt (1 - s.na_rel ^ 2)

/-- Pupil radius at the SLM plane: `pupil_radius_obj * pupil_magnification`. -/
noncomputable def MicroscopeSLMSystem.pupil_radius_slm (s : MicroscopeSLMSystem) : ℝ :=
  s.pupil_radius_obj * s.pupil_magnification

/-- Vacuum wave number `2 * pi / wavelength`. -/
noncomputable def MicroscopeSLMSystem.k (s : MicroscopeSLMSystem) : ℝ :=
  2 * Real.pi / s.wavelength

/-- Geometry of the `SLMDevice` dataclass (pixel pitch and grid size). -/
structure SLMDevice where
  slm_pixel_pitch : ℝ
  slm_nx : ℕ
  slm_ny : ℕ

/-- The `X` meshgrid entry of `slm_coordinates` at column `j`:
`(j - slm_nx / 2 + 0.5) * slm_pixel_pitch` (constant along rows). -/
noncomputable def SLMDevice.Xcoord (d : SLMDevice) (j : ℕ) : ℝ :=
  ((j : ℝ) - (d.slm_nx : ℝ) / 2 + 1 / 2) * d.slm_pixel_pitch

/-- The `Y` meshgrid entry of `slm_coordinates` at row `i`:
`(i - slm_ny / 2 + 0.5) * slm_pixel_pitch` (constant along columns). -/
noncomputable def SLMDevice.Ycoord (d : SLMDevice) (i : ℕ) : ℝ :=
  ((i : ℝ) - (d.slm_ny : ℝ) / 2 + 1 / 2) * d.slm_pixel_pitch

/-- The free function `phase_to_uint`, one cell at a time:
`np.round(levels * phase / (2.0 * np.pi))` followed by the
`astype(np.uint8)` cast, which reduces the rounded value modulo 256. -/
noncomputable def phase_to_uint (phase : ℝ) (levels : ℤ) : ℤ :=
  npRound ((levels : ℝ) * phase / (2 * Real.pi)) % 256

/-- Elementwise numpy `uint8` addition (the `+` in `compute_cgh` merging
the correction pattern with the quantized phase): wraps at 256. -/
def uint8_add (a b : ℕ) : ℕ := (a + b) % 256

/-- One cell of `self.phase_slm` as `compute_cgh` stores it:
correction cell plus quantized total phase, in `uint8` arithmetic. -/
noncomputable def phase_slm_cell (corr : ℕ) (phase_total : ℝ) (levels : ℤ) : ℕ :=
  uint8_add corr (phase_to_uint phase_total levels).toNat

/-- The phase contribution of one spot inside `generate_cgh`:
`phi = k * (x0 * x_pupil + y0 * y_pupil) / f_obj`, plus the paraxial
defocus term when `include_defocus and np.abs(z0) > 0`. -/
noncomputable def spot_phase (s : MicroscopeSLMSystem) (x0 y0 z0 : ℝ)
    (include_defocus : Bool) (xp yp : ℝ) : ℝ :=
  let phi := s.k * (x0 * xp + y0 * yp) / s.f_obj
  if include_defocus = true ∧ 0 < |z0| then
    phi + -s.k * z0 * (xp ^ 2 + yp ^ 2) / (2 * s.f_obj ^ 2)
  else phi

/-- The pupil aperture mask of `generate_cgh`:
`(np.sqrt(X_slm**2 + Y_slm**2) <= pupil_radius_slm).astype(np.float32)`.
Note it tests the SLM coordinates themselves, not the pupil
coordinates `X_slm / M_pupil`. -/
noncomputable def pupil_mask_cgh (s : MicroscopeSLMSystem) (d : SLMDevice) (i j : ℕ) : ℝ :=
  if Real.sqrt ((d.Xcoord j) ^ 2 + (d.Ycoord i) ^ 2) ≤ s.pupil_radius_slm then 1 else 0

/-- The complex field of `generate_cgh` after the spot loop and after the
multiplication `field *= pupil_mask`, at grid cell `(i, j)`.  A `weights`
of `none` models the Python default `[1.0] * len(spots_sample)`. -/
noncomputable def cgh_field (s : MicroscopeSLMSystem) (d : SLMDevice)
    (spots : List (ℝ × ℝ × ℝ)) (weights : Option (List ℂ))
    (include_defocus : Bool) (i j : ℕ) : ℂ :=
  let xp := d.Xcoord j / s.pupil_magnification
  let yp := d.Ycoord i / s.pupil_magnification
  let ws := weights.getD (List.replicate spots.length 1)
  (((spots.zip ws).map fun p =>
      p.2 * Complex.exp (Complex.I *
        (spot_phase s p.1.1 p.1.2.1 p.1.2.2 include_defocus xp yp : ℝ))).sum) *
    (pupil_mask_cgh s d i j : ℝ)

/-- The `generate_cgh` method: the angle of the masked field, wrapped by
`(phase + 2.0 * np.pi) % (2.0 * np.pi)`; result shaped `(slm_ny, slm_nx)`. -/
noncomputable def generate_cgh (s : MicroscopeSLMSystem) (d : SLMDevice)
    (spots : List (ℝ × ℝ × ℝ)) (weights : Option (List ℂ))
    (include_defocus : Bool) : Arr2 ℝ :=
  ⟨d.slm_ny, d.slm_nx, fun i j =>
    rmod ((cgh_field s d spots weights include_defocus i j).arg + 2 * Real.pi)
      (2 * Real.pi)⟩

/-- Counterpart of `np.fft.fft2` (unnormalized forward transform) on an
`ny × nx` grid of complex values. -/
noncomputable def fft2 (ny nx : ℕ) (F : ℕ → ℕ → ℂ) (k l : ℕ) : ℂ :=
  ∑ m ∈ Finset.range ny, ∑ n ∈ Finset.range nx,
    F m n * Complex.exp (-(2 * Real.pi * Complex.I) *
      (((k * m : ℕ) : ℂ) / (ny : ℂ) + ((l * n : ℕ) : ℂ) / (nx : ℂ)))

/-- Counterpart of `np.fft.ifft2` (inverse transform, normalized by
`1 / (ny * nx)`). -/
noncomputable def ifft2 (ny nx : ℕ) (F : ℕ → ℕ → ℂ) (m n : ℕ) : ℂ :=
  (∑ k ∈ Finset.range ny, ∑ l ∈ Finset.range nx,
    F k l * Complex.exp ((2 * Real.pi * Complex.I) *
      (((m * k : ℕ) : ℂ) / (ny : ℂ) + ((n * l : ℕ) : ℂ) / (nx : ℂ)))) /
    ((ny : ℂ) * (nx : ℂ))

/-- Counterpart of `np.fft.fftshift` on both axes: a roll by `n // 2`,
so `out[i][j] = in[(i + ny - ny/2) % ny][(j + nx - nx/2) % nx]`. -/
noncomputable def fftshift2 (ny nx : ℕ) (F : ℕ → ℕ → ℂ) : ℕ → ℕ → ℂ :=
  fun i j => F ((i + (ny - ny / 2)) % ny) ((j + (nx - nx / 2)) % nx)

/-- Counterpart of `np.fft.ifftshift` on both axes: a roll by `-(n // 2)`. -/
noncomputable def ifftshift2 (ny nx : ℕ) (F : ℕ → ℕ → ℂ) : ℕ → ℕ → ℂ :=
  fun i j => F ((i + ny / 2) % ny) ((j + nx / 2) % nx)

/-- The pupil mask used by `gerchberg_saxton_with_target`:
`X_slm**2 + Y_slm**2 <= pupil_radius_slm**2` when `use_pupil_mask`,
else all ones. -/
noncomputable def gs_mask (s : MicroscopeSLMSystem) (d : SLMDevice) (upm : Bool)
    (i j : ℕ) : ℝ :=
  if upm = true then
    if (d.Xcoord j) ^ 2 + (d.Ycoord i) ^ 2 ≤ s.pupil_radius_slm ^ 2 then 1 else 0
  else 1

/-- Initial SLM phase of the retrieval: `np.mod(phase_init, 2 pi)` when a
seed is given, else `2 pi * rand(ny, nx)` from the random source `rand`. -/
noncomputable def gs_phase_init (rand : ℕ → ℕ → ℝ) :
    Option (ℕ → ℕ → ℝ) → ℕ → ℕ → ℝ
  | some p => fun i j => rmod (p i j) (2 * Real.pi)
  | none => fun i j => 2 * Real.pi * rand i j

/-- The loop state of `gerchberg_saxton_with_target`: the current
`phase_slm` and the current constrained field `exp(1j * phase) * mask`. -/
noncomputable def gs_state0 (mask phase0 : ℕ → ℕ → ℝ) :
    (ℕ → ℕ → ℝ) × (ℕ → ℕ → ℂ) :=
  (phase0, fun i j => Complex.exp (Complex.I * (phase0 i j : ℝ)) * (mask i j : ℝ))

/-- One Gerchberg-Saxton iteration: forward transform with centering
shift, amplitude replacement by the target, inverse transform, then the
phase-only aperture-limited constraint. -/
noncomputable def gs_body (ny nx : ℕ) (target mask : ℕ → ℕ → ℝ)
    (st : (ℕ → ℕ → ℝ) × (ℕ → ℕ → ℂ)) : (ℕ → ℕ → ℝ) × (ℕ → ℕ → ℂ) :=
  let field_focal := fftshift2 ny nx (fft2 ny nx st.2)
  let constrained : ℕ → ℕ → ℂ := fun i j =>
    (target i j : ℝ) * Complex.exp (Complex.I * ((field_focal i j).arg : ℝ))
  let field_slm : ℕ → ℕ → ℂ := fun i j => ifft2 ny nx (ifftshift2 ny nx constrained) i j
  let phase : ℕ → ℕ → ℝ := fun i j => (field_slm i j).arg
  (phase, fun i j => Complex.exp (Complex.I * (phase i j : ℝ)) * (mask i j : ℝ))

/-- The `gerchberg_saxton_with_target` method.  The leading shape
assertion is modelled by returning `none` (the raised `AssertionError`)
when the target's shape differs from `(slm_ny, slm_nx)`; otherwise the
loop runs exactly `n_iters` times and the final phase is wrapped by
`(phase_slm + 2 pi) % (2 pi)`. -/
noncomputable def gerchberg_saxton_with_target (s : MicroscopeSLMSystem) (d : SLMDevice)
    (target : Arr2 ℝ) (n_iters : ℕ) (phase_init : Option (ℕ → ℕ → ℝ))
    (rand : ℕ → ℕ → ℝ) (upm : Bool) : Option (ℕ → ℕ → ℝ) :=
  if (target.ny, target.nx) = (d.slm_ny, d.slm_nx) then
    some (fun i j =>
      rmod
        (((gs_body d.slm_ny d.slm_nx target.val (gs_mask s d upm))^[n_iters]
            (gs_state0 (gs_mask s d upm) (gs_phase_init rand phase_init))).1 i j
          + 2 * Real.pi)
        (2 * Real.pi))
  else none

/-- The `generate_fresnel_lens_phase` method:
`np.mod(-k * (X**2 + Y**2) / (2 * f_fresnel), 2 pi)` over the grid. -/
noncomputable def generate_fresnel_lens_phase (s : MicroscopeSLMSystem)
    (d : SLMDevice) : Arr2 ℝ :=
  ⟨d.slm_ny, d.slm_nx, fun i j =>
    rmod (-(2 * Real.pi / s.wavelength) * ((d.Xcoord j) ^ 2 + (d.Ycoord i) ^ 2) /
        (2 * s.f_fresnel))
      (2 * Real.pi)⟩

/-- Counterpart of `np.fft.fftfreq(n, d)` at index `k`:
`k / (n d)` for `k` below `(n+1) // 2`, else `(k - n) / (n d)`. -/
noncomputable def fftfreq (n : ℕ) (d : ℝ) (k : ℕ) : ℝ :=
  (if k < (n + 1) / 2 then (k : ℝ) else (k : ℝ) - (n : ℝ)) / ((n : ℝ) * d)

/-- An `fftshift`-ed `fftfreq` axis, as built in
`sample_plane_coordinates_fft_grid`. -/
noncomputable def fftfreq_shifted (n : ℕ) (d : ℝ) (i : ℕ) : ℝ :=
  fftfreq n d ((i + (n - n / 2)) % n)

/-- The sample-plane `Xs` coordinate of `sample_plane_coordinates_fft_grid`
at column `j`: `wavelength * f_obj * FX`. -/
noncomputable def sample_Xs (s : MicroscopeSLMSystem) (d : SLMDevice) (j : ℕ) : ℝ :=
  s.wavelength * s.f_obj * fftfreq_shifted d.slm_nx d.slm_pixel_pitch j

/-- The sample-plane `Ys` coordinate at row `i`: `wavelength * f_obj * FY`. -/
noncomputable def sample_Ys (s : MicroscopeSLMSystem) (d : SLMDevice) (i : ℕ) : ℝ :=
  s.wavelength * s.f_obj * fftfreq_shifted d.slm_ny d.slm_pixel_pitch i

/-- First index attaining the minimum of `f` on `0..n` (left fold that
replaces the best index only on a strictly smaller value), the semantics
of `np.argmin` over a flattened array. -/
noncomputable def argminUpTo (f : ℕ → ℝ) : ℕ → ℕ
  | 0 => 0
  | n + 1 => if f (n + 1) < f (argminUpTo f n) then n + 1 else argminUpTo f n

/-- One iteration of the spot loop of `build_target_amp_from_spots`:
with `sigma = none` add `amp` at the grid cell nearest the spot (argmin of
squared distance over the flattened grid, then `unravel_index`); with
`sigma = some sg` add a Gaussian bump over the whole grid. -/
noncomputable def addSpotTarget (s : MicroscopeSLMSystem) (d : SLMDevice)
    (sigma : Option ℝ) (amp : ℝ) (A : ℕ → ℕ → ℝ) (spot : ℝ × ℝ × ℝ) : ℕ → ℕ → ℝ :=
  match sigma with
  | none =>
    let dist2 : ℕ → ℝ := fun q =>
      (sample_Xs s d (q % d.slm_nx) - spot.1) ^ 2 +
      (sample_Ys s d (q / d.slm_nx) - spot.2.1) ^ 2
    let q := argminUpTo dist2 (d.slm_ny * d.slm_nx - 1)
    fun i j => if i = q / d.slm_nx ∧ j = q % d.slm_nx then A i j + amp else A i j
  | some sg => fun i j =>
    A i j + amp * Real.exp (-((sample_Xs s d j - spot.1) ^ 2 +
      (sample_Ys s d i - spot.2.1) ^ 2) / (2 * sg ^ 2))

/-- The accumulated (pre-normalization) target amplitude of
`build_target_amp_from_spots`: fold of `addSpotTarget` over the spot list
starting from the zero array. -/
noncomputable def target_raw (s : MicroscopeSLMSystem) (d : SLMDevice)
    (spots : List (ℝ × ℝ × ℝ)) (sigma : Option ℝ) (amp : ℝ) : ℕ → ℕ → ℝ :=
  spots.foldl (addSpotTarget s d sigma amp) (fun _ _ => 0)

/-- Counterpart of `target_amp.max()`: the maximum of the entries over
the `(slm_ny, slm_nx)` grid (junk `0` for an empty grid, where numpy
raises). -/
noncomputable def target_max (d : SLMDevice) (A : ℕ → ℕ → ℝ) : ℝ :=
  (((Finset.range d.slm_ny) ×ˢ (Finset.range d.slm_nx)).image fun p => A p.1 p.2).max.unbot' 0

/-- The `build_target_amp_from_spots` method: accumulate the spots, then
divide by the global maximum only when it is positive
(`if max_val > 0: target_amp /= max_val`). -/
noncomputable def build_target_amp_from_spots (s : MicroscopeSLMSystem) (d : SLMDevice)
    (spots : List (ℝ × ℝ × ℝ)) (sigma : Option ℝ) (amp : ℝ) : Arr2 ℝ :=
  if 0 < target_max d (target_raw s d spots sigma amp) then
    ⟨d.slm_ny, d.slm_nx, fun i j =>
      target_raw s d spots sigma amp i j / target_max d (target_raw s d spots sigma amp)⟩
  else
    ⟨d.slm_ny, d.slm_nx, target_raw s d spots sigma amp⟩

/-- The optical configuration built in `CGH.__init__`. -/
noncomputable def cghSystem : MicroscopeSLMSystem :=
  ⟨473 / 10 ^ 9, 133 / 100, 1, 20, 180 / 10 ^ 3, 150 / 10 ^ 3, 1⟩

/-- The device configuration built in `CGH.__init__`. -/
noncomputable def cghDevice : SLMDevice :=
  ⟨125 / 10 ^ 7, 1272, 1024⟩

/-- Configuration for the C1 counterexample: `n_medium = 2`, `NA_obj = 1`
and `f_tube = sqrt 3` give `pupil_radius_obj = 1`, and `pupil_mag = 1/2`
gives `pupil_radius_slm = 1/2`. -/
noncomputable def sysC1 : MicroscopeSLMSystem :=
  ⟨473 / 10 ^ 9, 2, 1, 1, Real.sqrt 3, 150 / 10 ^ 3, 1 / 2⟩

/-- A 1 x 2 device grid with pitch 4/5, so `Xcoord 0 = -2/5`. -/
noncomputable def devC1 : SLMDevice := ⟨4 / 5, 2, 1⟩

/-- Configuration for the C7 counterexample: `NA_obj / n_medium` equals
`0.9999995`, strictly between `0.999999` and `1`. -/
noncomputable def sysC7 : MicroscopeSLMSystem :=
  ⟨473 / 10 ^ 9, 1, 1999999 / 2000000, 20, 180 / 10 ^ 3, 150 / 10 ^ 3, 1⟩

/-- A degenerate configuration with `f_tube = 0`, hence pupil radius 0,
used to instantiate hypotheses at a concrete input. -/
noncomputable def sysB : MicroscopeSLMSystem := ⟨1, 2, 1, 1, 0, 1, 1⟩

/-- A 1 x 1 device grid with unit pitch; both coordinates are 0. -/
noncomputable def devB : SLMDevice := ⟨1, 1, 1⟩

/-! Helper lemmas about the real wrap `rmod` and the rounding `npRound`. -/

theorem rmod_nonneg (x : ℝ) {y : ℝ} (hy : 0 < y) : 0 ≤ rmod x y := by
  have h1 : (⌊x / y⌋ : ℝ) ≤ x / y := Int.floor_le _
  have h2 : y * (⌊x / y⌋ : ℝ) ≤ y * (x / y) :=
    mul_le_mul_of_nonneg_left h1 (le_of_lt hy)
  have h3 : y * (x / y) = x := by
    field_simp
  unfold rmod
  linarith

theorem rmod_lt (x : ℝ) {y : ℝ} (hy : 0 < y) : rmod x y < y := by
  have h1 : x / y < (⌊x / y⌋ : ℝ) + 1 := Int.lt_floor_add_one _
  have h2 : y * (x / y) < y * ((⌊x / y⌋ : ℝ) + 1) :=
    (mul_lt_mul_left hy).mpr h1
  have h3 : y * (x / y) = x := by
    field_simp
  unfold rmod
  nlinarith

theorem rmod_eq_self {x y : ℝ} (hy : 0 < y) (h0 : 0 ≤ x) (hxy : x < y) :
    rmod x y = x := by
  have hfl : ⌊x / y⌋ = 0 := by
    rw [Int.floor_eq_zero_iff]
    constructor
    · exact div_nonneg h0 (le_of_lt hy)
    · rw [div_lt_one hy]
      exact hxy
  unfold rmod
  rw [hfl]
  simp

theorem rmod_add_right (x : ℝ) {y : ℝ} (hy : y ≠ 0) : rmod (x + y) y = rmod x y := by
  have hdiv : (x + y) / y = x / y + 1 := by
    field_simp
  unfold rmod
  rw [hdiv, Int.floor_add_one]
  push_cast
  ring

theorem rmod_rmod (x : ℝ) {y : ℝ} (hy : 0 < y) : rmod (rmod x y) y = rmod x y :=
  rmod_eq_self hy (rmod_nonneg x hy) (rmod_lt x hy)

theorem rmod_wrap_once (x : ℝ) {y : ℝ} (hy : 0 < y) :
    rmod (rmod x y + y) y = rmod x y := by
  rw [rmod_add_right _ (ne_of_gt hy), rmod_rmod _ hy]

theorem rmod_zero_left (y : ℝ) : rmod 0 y = 0 := by
  unfold rmod
  simp

theorem rmod_int_mul (m : ℤ) {y : ℝ} (hy : y ≠ 0) : rmod (y * (m : ℝ)) y = 0 := by
  have hdiv : y * (m : ℝ) / y = (m : ℝ) := by
    field_simp
  unfold rmod
  rw [hdiv, Int.floor_intCast]
  ring

theorem two_pi_pos : (0 : ℝ) < 2 * Real.pi := by
  have := Real.pi_pos
  linarith

theorem npRound_bounds (x : ℝ) : ⌊x⌋ ≤ npRound x ∧ npRound x ≤ ⌊x⌋ + 1 := by
  unfold npRound
  split_ifs <;> omega

/-- Claim C3: in `compute_cgh` the correction buffer is merged with the
quantized phase by numpy `uint8` addition, which wraps at 256 rather than
saturating: for all cell values `a, b` the stored value is `(a + b) % 256`,
the overflowing case is `a + b - 256`, `250 + 10` stores `4`, and the
stored `phase_slm` cell is exactly this `uint8` sum of the correction cell
and the quantized total phase. -/
theorem C3_uint8_wraparound (a b : ℕ) (ha : a < 256) (hb : b < 256) :
    uint8_add a b = (a + b) % 256 ∧
    (256 ≤ a + b → uint8_add a b = a + b - 256) ∧
    uint8_add 250 10 = 4 ∧
    ∀ (corr : ℕ) (pt : ℝ) (lv : ℤ),
      phase_slm_cell corr pt lv = (corr + (phase_to_uint pt lv).toNat) % 256 := by
  refine ⟨rfl, ?_, rfl, fun _ _ _ => rfl⟩
  intro hab
  unfold uint8_add
  omega

/-- Witness for C3 at the concrete pair from the claim: `250 + 10`
stores `4`. -/
theorem C3_uint8_wraparound_witness : uint8_add 250 10 = 4 :=
  (C3_uint8_wraparound 250 10 (by norm_num) (by norm_num)).2.2.1

/-- Claim C4: a target amplitude whose shape differs from the device grid
shape makes `gerchberg_saxton_with_target` fail its leading shape
assertion (modelled as `none`) before any transform work, for every
iteration count, seed, random source and mask flag. -/
theorem C4_shape_mismatch (s : MicroscopeSLMSystem) (d : SLMDevice)
    (target : Arr2 ℝ) (n : ℕ) (init : Option (ℕ → ℕ → ℝ)) (rand : ℕ → ℕ → ℝ)
    (upm : Bool) (h : (target.ny, target.nx) ≠ (d.slm_ny, d.slm_nx)) :
    gerchberg_saxton_with_target s d target n init rand upm = none := by
  unfold gerchberg_saxton_with_target
  rw [if_neg h]

/-- Witness for C4: a 2 x 2 target against the 1 x 1 device grid fails. -/
theorem C4_shape_mismatch_witness :
    gerchberg_saxton_with_target sysB devB ⟨2, 2, fun _ _ => 0⟩ 5 none
      (fun _ _ => 0) true = none :=
  C4_shape_mismatch sysB devB ⟨2, 2, fun _ _ => 0⟩ 5 none (fun _ _ => 0) true
    (by simp [devB])

/-- Claim C6: with a matching target shape, running the retrieval for 0
iterations returns exactly the seed phase wrapped into `[0, 2 pi)`,
that is `np.mod(phase_init, 2 pi)`, untouched by any transform step. -/
theorem C6_zero_iterations (s : MicroscopeSLMSystem) (d : SLMDevice)
    (target : Arr2 ℝ) (init rand : ℕ → ℕ → ℝ) (upm : Bool)
    (hshape : (target.ny, target.nx) = (d.slm_ny, d.slm_nx)) :
    gerchberg_saxton_with_target s d target 0 (some init) rand upm =
      some fun i j => rmod (init i j) (2 * Real.pi) := by
  unfold gerchberg_saxton_with_target
  rw [if_pos hshape]
  congr 1
  funext i j
  rw [Function.iterate_zero_apply]
  show rmod ((gs_state0 (gs_mask s d upm) (gs_phase_init rand (some init))).1 i j
    + 2 * Real.pi) (2 * Real.pi) = _
  simp only [gs_state0, gs_phase_init]
  exact rmod_wrap_once _ two_pi_pos

/-- Witness for C6 on the 1 x 1 grid with an all-zero seed. -/
theorem C6_zero_iterations_witness :
    gerchberg_saxton_with_target sysB devB ⟨1, 1, fun _ _ => 0⟩ 0
      (some fun _ _ => 0) (fun _ _ => 0) false =
      some fun i j => rmod ((fun _ _ => (0 : ℝ)) i j) (2 * Real.pi) :=
  C6_zero_iterations sysB devB ⟨1, 1, fun _ _ => 0⟩ (fun _ _ => 0)
    (fun _ _ => 0) false rfl

/-- Claim C10: for the empty spot list, `generate_cgh` returns an array
of shape `(slm_ny, slm_nx)` that is identically zero: the accumulated
field is zero, `np.angle(0) = 0`, and the wrap leaves `0`. -/
theorem C10_empty_spots (s : MicroscopeSLMSystem) (d : SLMDevice)
    (w : Option (List ℂ)) (dfc : Bool) (i j : ℕ) :
    (generate_cgh s d [] w dfc).ny = d.slm_ny ∧
    (generate_cgh s d [] w dfc).nx = d.slm_nx ∧
    (generate_cgh s d [] w dfc).val i j = 0 := by
  refine ⟨rfl, rfl, ?_⟩
  have hfield : cgh_field s d [] w dfc i j = 0 := by
    simp [cgh_field]
  show rmod ((cgh_field s d [] w dfc i j).arg + 2 * Real.pi) (2 * Real.pi) = 0
  rw [hfield, Complex.arg_zero, rmod_add_right 0 (ne_of_gt two_pi_pos),
    rmod_zero_left]

/-- Claim C5: every phase field produced by the three core operations
(`generate_cgh`, `gerchberg_saxton_with_target` when it returns at all,
and `generate_fresnel_lens_phase`) has all entries in `[0, 2 pi)`. -/
theorem C5_wrap_invariant (s : MicroscopeSLMSystem) (d : SLMDevice)
    (spots : List (ℝ × ℝ × ℝ)) (w : Option (List ℂ)) (dfc : Bool)
    (target : Arr2 ℝ) (n : ℕ) (init : Option (ℕ → ℕ → ℝ)) (rand : ℕ → ℕ → ℝ)
    (upm : Bool) (i j : ℕ) :
    (0 ≤ (generate_cgh s d spots w dfc).val i j ∧
      (generate_cgh s d spots w dfc).val i j < 2 * Real.pi) ∧
    (∀ p, gerchberg_saxton_with_target s d target n init rand upm = some p →
      0 ≤ p i j ∧ p i j < 2 * Real.pi) ∧
    (0 ≤ (generate_fresnel_lens_phase s d).val i j ∧
      (generate_fresnel_lens_phase s d).val i j < 2 * Real.pi) := by
  refine ⟨⟨rmod_nonneg _ two_pi_pos, rmod_lt _ two_pi_pos⟩, ?_,
    rmod_nonneg _ two_pi_pos, rmod_lt _ two_pi_pos⟩
  intro p hp
  unfold gerchberg_saxton_with_target at hp
  by_cases hsh : (target.ny, target.nx) = (d.slm_ny, d.slm_nx)
  · rw [if_pos hsh, Option.some.injEq] at hp
    subst hp
    exact ⟨rmod_nonneg _ two_pi_pos, rmod_lt _ two_pi_pos⟩
  · rw [if_neg hsh] at hp
    exact absurd hp (by simp)

/-- Claim C9: the Fresnel lens phases for focal lengths `f` and `-f` are
exact additive inverses modulo `2 pi`: their sum wraps to `0` at every
grid cell, for every nonzero focal length. -/
theorem C9_lens_phase_inverse (s : MicroscopeSLMSystem) (d : SLMDevice)
    (i j : ℕ) (hf : s.f_fresnel ≠ 0) :
    rmod ((generate_fresnel_lens_phase s d).val i j +
      (generate_fresnel_lens_phase { s with f_fresnel := -s.f_fresnel } d).val i j)
      (2 * Real.pi) = 0 := by
  simp only [generate_fresnel_lens_phase]
  have h2 : (2 : ℝ) * -s.f_fresnel = -(2 * s.f_fresnel) := by ring
  rw [h2, div_neg]
  set T := 2 * Real.pi
  set a := -(2 * Real.pi / s.wavelength) * ((d.Xcoord j) ^ 2 + (d.Ycoord i) ^ 2) /
    (2 * s.f_fresnel) with ha
  have hsum : rmod a T + rmod (-a) T = T * ((-(⌊a / T⌋ + ⌊-a / T⌋) : ℤ) : ℝ) := by
    unfold rmod
    push_cast
    ring
  rw [hsum, rmod_int_mul _ (ne_of_gt two_pi_pos)]

/-- Witness for C9 on the degenerate configuration (`f_fresnel = 1`). -/
theorem C9_lens_phase_inverse_witness :
    rmod ((generate_fresnel_lens_phase sysB devB).val 0 0 +
      (generate_fresnel_lens_phase { sysB with f_fresnel := -sysB.f_fresnel } devB).val 0 0)
      (2 * Real.pi) = 0 :=
  C9_lens_phase_inverse sysB devB 0 0 (by norm_num [sysB])

/-- Claim C2 (amended): for phases in `[0, 2 pi)` and integer
`levels ≥ 1`, `phase_to_uint` returns `round(levels * phase / 2 pi)`
reduced modulo 256 by the `uint8` cast; the result always lies in
`[0, levels]`, and equals the un-reduced rounded value whenever
`levels ≤ 255`. -/
theorem C2_quantization_range (p : ℝ) (lv : ℤ) (h0 : 0 ≤ p)
    (h2 : p < 2 * Real.pi) (hl : 1 ≤ lv) :
    phase_to_uint p lv = npRound ((lv : ℝ) * p / (2 * Real.pi)) % 256 ∧
    0 ≤ phase_to_uint p lv ∧ phase_to_uint p lv ≤ lv ∧
    (lv ≤ 255 → phase_to_uint p lv = npRound ((lv : ℝ) * p / (2 * Real.pi))) := by
  have hlv : (0 : ℝ) < (lv : ℝ) := by
    exact_mod_cast lt_of_lt_of_le zero_lt_one hl
  have hq0 : 0 ≤ (lv : ℝ) * p / (2 * Real.pi) :=
    div_nonneg (mul_nonneg hlv.le h0) two_pi_pos.le
  have hql : (lv : ℝ) * p / (2 * Real.pi) < (lv : ℝ) := by
    rw [div_lt_iff₀ two_pi_pos]
    exact (mul_lt_mul_left hlv).mpr h2
  have hb := npRound_bounds ((lv : ℝ) * p / (2 * Real.pi))
  have hfl0 : 0 ≤ ⌊(lv : ℝ) * p / (2 * Real.pi)⌋ := Int.floor_nonneg.mpr hq0
  have hfll : ⌊(lv : ℝ) * p / (2 * Real.pi)⌋ < lv := Int.floor_lt.mpr hql
  unfold phase_to_uint
  refine ⟨rfl, ?_, ?_, ?_⟩ <;> omega

/-- Witness for C2 at phase `0` with `levels = 1`. -/
theorem C2_quantization_range_witness :
    0 ≤ phase_to_uint 0 1 ∧ phase_to_uint 0 1 ≤ 1 :=
  ⟨(C2_quantization_range 0 1 le_rfl two_pi_pos le_rfl).2.1,
   (C2_quantization_range 0 1 le_rfl two_pi_pos le_rfl).2.2.1⟩

/-- Counterexample to C2 as stated: at phase `pi` (inside `[0, 2 pi)`)
with `levels = 512 ≥ 1`, the rounded value is `256`, but the returned
cell is `256 % 256 = 0`, so the output is not `round(levels * phase /
2 pi)` itself. -/
theorem C2_quantization_counterexample :
    (0 : ℝ) ≤ Real.pi ∧ Real.pi < 2 * Real.pi ∧ (1 : ℤ) ≤ 512 ∧
    phase_to_uint Real.pi 512 ≠ npRound ((512 : ℝ) * Real.pi / (2 * Real.pi)) := by
  have hq : (512 : ℝ) * Real.pi / (2 * Real.pi) = 256 := by
    field_simp
    ring
  have hr : npRound (256 : ℝ) = 256 := by
    unfold npRound
    norm_num
  have hq2 : ((512 : ℤ) : ℝ) * Real.pi / (2 * Real.pi) = 256 := by
    push_cast
    exact hq
  refine ⟨Real.pi_pos.le, by linarith [Real.pi_pos], by norm_num, ?_⟩
  unfold phase_to_uint
  rw [hq2, hq, hr]
  norm_num

/-- One fold step of the target accumulation keeps all entries
nonnegative when the per-spot amplitude is nonnegative. -/
theorem addSpotTarget_nonneg (s : MicroscopeSLMSystem) (d : SLMDevice)
    (sigma : Option ℝ) (amp : ℝ) (hamp : 0 ≤ amp) (A : ℕ → ℕ → ℝ)
    (hA : ∀ i j, 0 ≤ A i j) (spot : ℝ × ℝ × ℝ) :
    ∀ i j, 0 ≤ addSpotTarget s d sigma amp A spot i j := by
  intro i j
  cases sigma with
  | none =>
      simp only [addSpotTarget]
      split_ifs with h
      · have := hA i j
        linarith
      · exact hA i j
  | some sg =>
      simp only [addSpotTarget]
      exact add_nonneg (hA i j) (mul_nonneg hamp (Real.exp_nonneg _))

/-- All entries of the accumulated (pre-normalization) target are
nonnegative when the per-spot amplitude is nonnegative. -/
theorem target_raw_nonneg (s : MicroscopeSLMSystem) (d : SLMDevice)
    (sigma : Option ℝ) (amp : ℝ) (hamp : 0 ≤ amp)
    (spots : List (ℝ × ℝ × ℝ)) :
    ∀ i j, 0 ≤ target_raw s d spots sigma amp i j := by
  unfold target_raw
  have main : ∀ (l : List (ℝ × ℝ × ℝ)) (A : ℕ → ℕ → ℝ), (∀ i j, 0 ≤ A i j) →
      ∀ i j, 0 ≤ l.foldl (addSpotTarget s d sigma amp) A i j := by
    intro l
    induction l with
    | nil => exact fun A hA => hA
    | cons hd tl ih =>
        intro A hA
        exact ih _ (addSpotTarget_nonneg s d sigma amp hamp A hA hd)
  exact main spots _ (fun _ _ => le_refl 0)

/-- Every in-grid entry is bounded by the grid maximum `target_max`. -/
theorem le_target_max (d : SLMDevice) (A : ℕ → ℕ → ℝ) {i j : ℕ}
    (hi : i < d.slm_ny) (hj : j < d.slm_nx) : A i j ≤ target_max d A := by
  have hmem : A i j ∈ ((Finset.range d.slm_ny) ×ˢ (Finset.range d.slm_nx)).image
      (fun p => A p.1 p.2) :=
    Finset.mem_image.mpr ⟨(i, j), Finset.mem_product.mpr
      ⟨Finset.mem_range.mpr hi, Finset.mem_range.mpr hj⟩, rfl⟩
  obtain ⟨m, hm⟩ := Finset.max_of_mem hmem
  have hle := Finset.le_max hmem
  rw [hm] at hle
  unfold target_max
  rw [hm]
  exact_mod_cast hle

/-- Claim C8: `build_target_amp_from_spots` normalizes by the global
maximum when that maximum is positive, skips the division when the
maximum is zero (returning the all-zero array), and in either case every
in-grid value lies in `[0, 1]`. -/
theorem C8_target_normalization (s : MicroscopeSLMSystem) (d : SLMDevice)
    (spots : List (ℝ × ℝ × ℝ)) (sigma : Option ℝ) (amp : ℝ)
    (hamp : 0 ≤ amp) (hsig : sigma ≠ some 0) (i j : ℕ)
    (hi : i < d.slm_ny) (hj : j < d.slm_nx) :
    (0 ≤ (build_target_amp_from_spots s d spots sigma amp).val i j ∧
      (build_target_amp_from_spots s d spots sigma amp).val i j ≤ 1) ∧
    (0 < target_max d (target_raw s d spots sigma amp) →
      (build_target_amp_from_spots s d spots sigma amp).val i j =
        target_raw s d spots sigma amp i j /
          target_max d (target_raw s d spots sigma amp)) ∧
    (target_max d (target_raw s d spots sigma amp) = 0 →
      (build_target_amp_from_spots s d spots sigma amp).val i j = 0) := by
  have hraw := target_raw_nonneg s d sigma amp hamp spots
  have hle := le_target_max d (target_raw s d spots sigma amp) hi hj
  unfold build_target_amp_from_spots
  by_cases hm : 0 < target_max d (target_raw s d spots sigma amp)
  · rw [if_pos hm]
    refine ⟨⟨div_nonneg (hraw i j) hm.le, ?_⟩, fun _ => rfl,
      fun h0 => absurd h0 (by linarith)⟩
    rw [div_le_one hm]
    exact hle
  · rw [if_neg hm]
    push_neg at hm
    have h0 : target_raw s d spots sigma amp i j = 0 :=
      le_antisymm (le_trans hle hm) (hraw i j)
    refine ⟨⟨hraw i j, ?_⟩, fun hc => absurd hc (not_lt.mpr hm), fun _ => h0⟩
    show target_raw s d spots sigma amp i j ≤ 1
    rw [h0]
    norm_num

/-- Witness for C8: empty spot list on the 1 x 1 grid, unit amplitude. -/
theorem C8_target_normalization_witness :
    0 ≤ (build_target_amp_from_spots sysB devB [] none 1).val 0 0 ∧
    (build_target_amp_from_spots sysB devB [] none 1).val 0 0 ≤ 1 :=
  (C8_target_normalization sysB devB [] none 1 (by norm_num)
    (fun h => Option.noConfusion h) 0 0 Nat.one_pos Nat.one_pos).1

/-- Claim C7 (amended): for media with positive refractive index,
`pupil_radius_obj` equals `f_obj * r / sqrt(1 - r^2)` with the ratio
`r = NA/n` used unclamped whenever `NA < n`, and clamped to `0.999999`
exactly when `NA ≥ n` (not `min(NA/n, 0.999999)`); in the clamped case
the square-root denominator is nonzero, so the radius stays finite. -/
theorem C7_pupil_radius (s : MicroscopeSLMSystem) (hn : 0 < s.n_medium) :
    (s.NA_obj < s.n_medium →
      s.pupil_radius_obj =
        s.f_obj * (s.NA_obj / s.n_medium) /
          Real.sqrt (1 - (s.NA_obj / s.n_medium) ^ 2)) ∧
    (s.n_medium ≤ s.NA_obj →
      s.pupil_radius_obj =
        s.f_obj * (999999 / 10 ^ 6) /
          Real.sqrt (1 - (999999 / 10 ^ 6 : ℝ) ^ 2) ∧
      Real.sqrt (1 - (999999 / 10 ^ 6 : ℝ) ^ 2) ≠ 0) := by
  constructor
  · intro h
    have hlt : s.NA_obj / s.n_medium < 1 := (div_lt_one hn).mpr h
    unfold MicroscopeSLMSystem.pupil_radius_obj MicroscopeSLMSystem.na_rel
    rw [if_neg (not_le.mpr hlt)]
  · intro h
    have hge : 1 ≤ s.NA_obj / s.n_medium := (one_le_div hn).mpr h
    unfold MicroscopeSLMSystem.pupil_radius_obj MicroscopeSLMSystem.na_rel
    rw [if_pos hge]
    exact ⟨rfl, ne_of_gt (Real.sqrt_pos.mpr (by norm_num))⟩

/-- Witness for C7 at the configuration `CGH.__init__` builds
(`NA = 1 < n = 1.33`). -/
theorem C7_pupil_radius_witness :
    cghSystem.pupil_radius_obj =
      cghSystem.f_obj * (cghSystem.NA_obj / cghSystem.n_medium) /
        Real.sqrt (1 - (cghSystem.NA_obj / cghSystem.n_medium) ^ 2) :=
  (C7_pupil_radius cghSystem (by norm_num [cghSystem])).1
    (by norm_num [cghSystem])

/-- Counterexample to C7 as stated: at `NA/n = 0.9999995`, strictly
between `0.999999` and `1`, the code keeps the raw ratio (the clamp fires
only at `≥ 1`), so the radius differs from the claimed
`f * min(NA/n, 0.999999) / sqrt(1 - min(NA/n, 0.999999)^2)`. -/
theorem C7_pupil_radius_counterexample :
    0 < sysC7.n_medium ∧
    sysC7.pupil_radius_obj ≠
      sysC7.f_obj * min (sysC7.NA_obj / sysC7.n_medium) (999999 / 10 ^ 6) /
        Real.sqrt (1 -
          (min (sysC7.NA_obj / sysC7.n_medium) (999999 / 10 ^ 6)) ^ 2) := by
  have hratio : sysC7.NA_obj / sysC7.n_medium = (1999999 : ℝ) / 2000000 := by
    norm_num [sysC7]
  have hf : sysC7.f_obj = (9 : ℝ) / 1000 := by
    norm_num [MicroscopeSLMSystem.f_obj, sysC7]
  have hmin : min ((1999999 : ℝ) / 2000000) (999999 / 10 ^ 6) =
      (999999 : ℝ) / 1000000 := by
    rw [min_eq_right (by norm_num)]
    norm_num
  have hL : sysC7.pupil_radius_obj =
      (9 / 1000 : ℝ) * (1999999 / 2000000) /
        Real.sqrt (1 - (1999999 / 2000000 : ℝ) ^ 2) := by
    unfold MicroscopeSLMSystem.pupil_radius_obj MicroscopeSLMSystem.na_rel
    rw [hratio, hf, if_neg (by norm_num)]
  have h1 : (0 : ℝ) < 1 - (1999999 / 2000000 : ℝ) ^ 2 := by norm_num
  have h2 : (0 : ℝ) < 1 - (999999 / 1000000 : ℝ) ^ 2 := by norm_num
  have hsa : 0 < Real.sqrt (1 - (1999999 / 2000000 : ℝ) ^ 2) :=
    Real.sqrt_pos.mpr h1
  have hsb : 0 < Real.sqrt (1 - (999999 / 1000000 : ℝ) ^ 2) :=
    Real.sqrt_pos.mpr h2
  have ea : (1999999 / 2000000 : ℝ) * Real.sqrt (1 - (999999 / 1000000 : ℝ) ^ 2) =
      Real.sqrt ((1999999 / 2000000 : ℝ) ^ 2 * (1 - (999999 / 1000000 : ℝ) ^ 2)) := by
    rw [Real.sqrt_mul (by positivity), Real.sqrt_sq (by norm_num)]
  have eb : (999999 / 1000000 : ℝ) * Real.sqrt (1 - (1999999 / 2000000 : ℝ) ^ 2) =
      Real.sqrt ((999999 / 1000000 : ℝ) ^ 2 * (1 - (1999999 / 2000000 : ℝ) ^ 2)) := by
    rw [Real.sqrt_mul (by positivity), Real.sqrt_sq (by norm_num)]
  have hkey : Real.sqrt ((999999 / 1000000 : ℝ) ^ 2 * (1 - (1999999 / 2000000 : ℝ) ^ 2)) <
      Real.sqrt ((1999999 / 2000000 : ℝ) ^ 2 * (1 - (999999 / 1000000 : ℝ) ^ 2)) := by
    apply Real.sqrt_lt_sqrt (by positivity)
    norm_num
  have hbase : (999999 / 1000000 : ℝ) / Real.sqrt (1 - (999999 / 1000000 : ℝ) ^ 2) <
      (1999999 / 2000000 : ℝ) / Real.sqrt (1 - (1999999 / 2000000 : ℝ) ^ 2) := by
    rw [div_lt_div_iff₀ hsb hsa]
    rw [← ea, ← eb] at hkey
    exact hkey
  have hmul : (9 / 1000 : ℝ) * (999999 / 1000000) /
        Real.sqrt (1 - (999999 / 1000000 : ℝ) ^ 2) <
      (9 / 1000 : ℝ) * (1999999 / 2000000) /
        Real.sqrt (1 - (1999999 / 2000000 : ℝ) ^ 2) := by
    rw [mul_div_assoc, mul_div_assoc]
    exact (mul_lt_mul_left (by norm_num)).mpr hbase
  refine ⟨by norm_num [sysC7], ?_⟩
  rw [hL, hratio, hf, hmin]
  exact ne_of_gt hmul

/-- The SLM-plane pupil radius of the C1 configuration evaluates to
`1/2` (objective radius `sqrt 3 * (1/2) / (sqrt 3 / 2) = 1`, times the
pupil magnification `1/2`). -/
theorem sysC1_radius : sysC1.pupil_radius_slm = 1 / 2 := by
  have h3 : Real.sqrt 3 ≠ 0 := ne_of_gt (Real.sqrt_pos.mpr (by norm_num))
  have h34 : Real.sqrt (1 - (1 / 2 : ℝ) ^ 2) = Real.sqrt 3 / 2 := by
    rw [show (1 - (1 / 2 : ℝ) ^ 2) = 3 / 4 by norm_num,
      Real.sqrt_div (by norm_num : (0 : ℝ) ≤ 3) 4,
      show (4 : ℝ) = 2 ^ 2 by norm_num,
      Real.sqrt_sq (by norm_num : (0 : ℝ) ≤ 2)]
  have hratio : sysC1.NA_obj / sysC1.n_medium = (1 / 2 : ℝ) := by
    norm_num [sysC1]
  have hfobj : sysC1.f_obj = Real.sqrt 3 := by
    simp [MicroscopeSLMSystem.f_obj, sysC1]
  have hmag : sysC1.pupil_magnification = (1 / 2 : ℝ) := by
    norm_num [MicroscopeSLMSystem.pupil_magnification, sysC1]
  unfold MicroscopeSLMSystem.pupil_radius_slm MicroscopeSLMSystem.pupil_radius_obj
    MicroscopeSLMSystem.na_rel
  rw [hratio, hfobj, hmag, if_neg (by norm_num : ¬ (1 : ℝ) ≤ 1 / 2), h34]
  field_simp

/-- The first SLM `X` coordinate of the C1 device grid is `-2/5`. -/
theorem devC1_X0 : devC1.Xcoord 0 = -(2 / 5) := by
  unfold SLMDevice.Xcoord
  norm_num [devC1]

/-- The first SLM `Y` coordinate of the C1 device grid is `0`. -/
theorem devC1_Y0 : devC1.Ycoord 0 = 0 := by
  unfold SLMDevice.Ycoord
  norm_num [devC1]

/-- In the C1 configuration, cell `(0, 0)` passes the code's SLM-plane
aperture test (`sqrt(0.16) = 0.4 ≤ 0.5`), so the mask there is `1`. -/
theorem sysC1_mask : pupil_mask_cgh sysC1 devC1 0 0 = 1 := by
  unfold pupil_mask_cgh
  rw [devC1_X0, devC1_Y0, sysC1_radius,
    show (-(2 / 5 : ℝ)) ^ 2 + (0 : ℝ) ^ 2 = (2 / 5) ^ 2 by norm_num,
    Real.sqrt_sq (by norm_num : (0 : ℝ) ≤ 2 / 5),
    if_pos (by norm_num : (2 / 5 : ℝ) ≤ 1 / 2)]

/-- Claim C1 (amended): the binary pupil mask of `generate_cgh` is
computed in SLM coordinates, not in pupil coordinates: for nonnegative
`pupil_radius_slm` it is `1` exactly when `X_slm^2 + Y_slm^2 ≤
pupil_radius_slm^2` (the two conditions agree only when the pupil
magnification is `1`), and wherever this SLM-coordinate mask is `0` the
pre-angle-extraction complex field is exactly zero. -/
theorem C1_pupil_mask (s : MicroscopeSLMSystem) (d : SLMDevice)
    (spots : List (ℝ × ℝ × ℝ)) (w : Option (List ℂ)) (dfc : Bool) (i j : ℕ)
    (hr : 0 ≤ s.pupil_radius_slm) :
    (pupil_mask_cgh s d i j = 1 ↔
      (d.Xcoord j) ^ 2 + (d.Ycoord i) ^ 2 ≤ s.pupil_radius_slm ^ 2) ∧
    (pupil_mask_cgh s d i j = 0 → cgh_field s d spots w dfc i j = 0) := by
  constructor
  · unfold pupil_mask_cgh
    split_ifs with h
    · constructor
      · intro _
        have h2 : Real.sqrt ((d.Xcoord j) ^ 2 + (d.Ycoord i) ^ 2) ^ 2 ≤
            s.pupil_radius_slm ^ 2 :=
          pow_le_pow_left (Real.sqrt_nonneg _) h 2
        rwa [Real.sq_sqrt (by positivity)] at h2
      · intro _
        rfl
    · constructor
      · intro h1
        norm_num at h1
      · intro hc
        exfalso
        apply h
        calc Real.sqrt ((d.Xcoord j) ^ 2 + (d.Ycoord i) ^ 2)
            ≤ Real.sqrt (s.pupil_radius_slm ^ 2) := Real.sqrt_le_sqrt hc
          _ = s.pupil_radius_slm := Real.sqrt_sq hr
  · intro h0
    simp only [cgh_field]
    rw [h0]
    simp

/-- Witness for C1 on the degenerate configuration with pupil radius 0:
on the 1 x 1 grid with both coordinates 0 the mask is 1 and the
membership condition holds. -/
theorem C1_pupil_mask_witness :
    pupil_mask_cgh sysB devB 0 0 = 1 ↔
      (devB.Xcoord 0) ^ 2 + (devB.Ycoord 0) ^ 2 ≤ sysB.pupil_radius_slm ^ 2 :=
  (C1_pupil_mask sysB devB [] none false 0 0
    (by norm_num [MicroscopeSLMSystem.pupil_radius_slm,
      MicroscopeSLMSystem.pupil_radius_obj, MicroscopeSLMSystem.f_obj,
      MicroscopeSLMSystem.pupil_magnification, MicroscopeSLMSystem.na_rel,
      sysB])).1

/-- Counterexample to C1 as stated: in the C1 configuration (pupil
magnification `1/2`), the cell `(0, 0)` has pupil coordinates outside
the claimed pupil-coordinate disk (`0.64 > 0.25`), yet the code's mask
is `1` there and the pre-angle-extraction field of a single centered
unit-weight spot equals `1`, not `0`. -/
theorem C1_pupil_mask_counterexample :
    ¬ ((devC1.Xcoord 0 / sysC1.pupil_magnification) ^ 2 +
        (devC1.Ycoord 0 / sysC1.pupil_magnification) ^ 2 ≤
          sysC1.pupil_radius_slm ^ 2) ∧
    pupil_mask_cgh sysC1 devC1 0 0 = 1 ∧
    cgh_field sysC1 devC1 [(0, 0, 0)] none false 0 0 ≠ 0 := by
  have hmag : sysC1.pupil_magnification = (1 / 2 : ℝ) := by
    norm_num [MicroscopeSLMSystem.pupil_magnification, sysC1]
  refine ⟨?_, sysC1_mask, ?_⟩
  · rw [devC1_X0, devC1_Y0, sysC1_radius, hmag]
    norm_num
  · have hphase : ∀ xp yp : ℝ, spot_phase sysC1 0 0 0 false xp yp = 0 := by
      intro xp yp
      simp [spot_phase]
    simp only [cgh_field, Option.getD_none, List.length_cons, List.length_nil,
      List.replicate, List.zip_cons_cons, List.zip_nil_left, List.map_cons,
      List.map_nil, List.sum_cons, List.sum_nil, hphase]
    rw [sysC1_mask]
    simp
